import Mathlib

/-!
Shallow embedding of the lost-and-found announcement store of
`src/rss_tech_expo.py` (a Streamlit app over a pandas DataFrame persisted
as `announcements.csv`), together with theorems settling the frozen claims
about its specification.

Modelling conventions:
* A pandas DataFrame loaded with `dtype=str` holds, in each cell, either a
  string or NaN; a cell is modelled as `Option String` (`none` = NaN).
* The DataFrame row index (labels) matters: `df.loc[k] = row` overwrites the
  row labelled `k` when the label exists and appends otherwise, and
  `df = df[mask]` keeps the surviving rows' labels.  A table is therefore a
  list of (label, row) pairs; `pd.read_csv` assigns labels `0, 1, …, n-1`.
* `df.to_csv(index=False)` followed by `pd.read_csv(dtype=str)` writes every
  cell as text (NaN as the empty field) and re-reads any field occurring in
  pandas' default `na_values` set (in particular the empty field) as NaN.
* Python strings are compared by code points; `str.isdigit` / `str.strip`
  are modelled on their ASCII fragment, which is all the claims exercise.
-/

/-- Models Python `str.isdigit` on its ASCII fragment (the claims never
exercise non-ASCII decimal digits, which Python would also accept). -/
def pyIsDigit (c : Char) : Bool := c.isDigit

/-- The whitespace characters removed by Python `str.strip()` (ASCII part). -/
def pyIsSpace (c : Char) : Bool :=
  c == ' ' || c == '\t' || c == '\n' || c == '\r' || c == '\x0b' || c == '\x0c'

/-- Models Python `str.lower()` on its ASCII fragment (character-wise
lowercasing). -/
def pyLower (s : String) : String := ⟨s.data.map Char.toLower⟩

/-- Models Python `str.strip()`: drop leading and trailing whitespace. -/
def pyStrip (s : String) : String :=
  ⟨((s.data.dropWhile pyIsSpace).reverse.dropWhile pyIsSpace).reverse⟩

/-- Python string `<`: lexicographic comparison of code points. -/
def lexLt : List Char → List Char → Bool
  | [], [] => false
  | [], _ :: _ => true
  | _ :: _, [] => false
  | a :: as, b :: bs =>
    if a.toNat < b.toNat then true
    else if a.toNat = b.toNat then lexLt as bs
    else false

/-- Python string `<=` (used for the inclusive date-range bounds). -/
def lexLe (a b : List Char) : Bool := !(lexLt b a)

/-- One announcement row: the 13 fixed columns.  String cells are `Option`
to represent pandas NaN; `Resolved` is a real boolean after `load_data`'s
coercion (and in created rows). -/
structure Row where
  id : Option String
  ptype : Option String
  category : Option String
  city : Option String
  description : Option String
  image1 : Option String
  image2 : Option String
  image3 : Option String
  phone : Option String
  date : Option String
  eventDate : Option String
  deletePassword : Option String
  resolved : Bool
deriving DecidableEq

/-- The in-memory DataFrame: rows with their pandas index labels. -/
abbrev Table := List (Nat × Row)

/-- The persisted CSV file: a header line and one record per row.  Every
field is plain text (`to_csv` has already rendered NaN as the empty field
and booleans as `"True"`/`"False"`). -/
structure CsvFile where
  header : List String
  records : List (List String)
deriving DecidableEq

/-- The fixed column list of `load_data`. -/
def columns : List String :=
  ["ID", "Type", "Category", "City", "Description",
   "Image1", "Image2", "Image3", "Phone", "Date",
   "EventDate", "DeletePassword", "Resolved"]

/-- pandas' default `na_values`: the text fields `pd.read_csv` turns into
NaN even under `dtype=str`. -/
def naValues : List String :=
  ["", "#N/A", "#N/A N/A", "#NA", "-1.#IND", "-1.#QNAN", "-NaN", "-nan",
   "1.#IND", "1.#QNAN", "<NA>", "N/A", "NA", "NULL", "NaN", "None",
   "n/a", "nan", "null"]

/-- Position of a column name in a header (first occurrence). -/
def colIdx (header : List String) (c : String) : Option Nat :=
  match header with
  | [] => none
  | h :: hs => if h = c then some 0 else (colIdx hs c).map (· + 1)

/-- The cell of column `c` seen by `load_data` for one CSV record:
`pd.read_csv(dtype=str)` yields the text field unless it is an `na_values`
entry (then NaN), and `load_data` fills a whole absent column with `""`. -/
def readCell (header : List String) (rec : List String) (c : String) :
    Option String :=
  match colIdx header c with
  | none => some ""
  | some j =>
    match rec.get? j with
    | none => none
    | some s => if s ∈ naValues then none else some s

/-- `load_data`'s coercion of the `Resolved` column:
`fillna("False").astype(str).str.lower().map({true/false/1/0}).fillna(False)`. -/
def coerceResolved (v : Option String) : Bool :=
  let s := pyLower (v.getD "False")
  if s = "true" then true
  else if s = "false" then false
  else if s = "1" then true
  else if s = "0" then false
  else false

/-- One loaded row, from a CSV record and the file's header. -/
def rowOfRecord (header : List String) (rec : List String) : Row :=
  { id := readCell header rec "ID"
    ptype := readCell header rec "Type"
    category := readCell header rec "Category"
    city := readCell header rec "City"
    description := readCell header rec "Description"
    image1 := readCell header rec "Image1"
    image2 := readCell header rec "Image2"
    image3 := readCell header rec "Image3"
    phone := readCell header rec "Phone"
    date := readCell header rec "Date"
    eventDate := readCell header rec "EventDate"
    deletePassword := readCell header rec "DeletePassword"
    resolved := coerceResolved (readCell header rec "Resolved") }

/-- `load_data()`: `none` models a missing `announcements.csv` (the empty
table with the full column set); otherwise each record becomes a row, with
fresh index labels `0, 1, …, n-1` (pandas `RangeIndex`). -/
def load_data (file : Option CsvFile) : Table :=
  match file with
  | none => []
  | some f => (f.records.enum).map (fun p => (p.1, rowOfRecord f.header p.2))

/-- The CSV record `to_csv` writes for one row (NaN as empty field,
booleans as `"True"`/`"False"`). -/
def rowRecord (r : Row) : List String :=
  [r.id.getD "", r.ptype.getD "", r.category.getD "", r.city.getD "",
   r.description.getD "", r.image1.getD "", r.image2.getD "",
   r.image3.getD "", r.phone.getD "", r.date.getD "", r.eventDate.getD "",
   r.deletePassword.getD "", if r.resolved then "True" else "False"]

/-- `save_data(df)`: `df.to_csv(DATA_FILE, index=False)` — the header is the
fixed column list and index labels are dropped. -/
def save_data (df : Table) : CsvFile :=
  ⟨columns, df.map (fun e => rowRecord e.2)⟩

/-- pandas elementwise `==` on `dtype=str` cells: NaN compares unequal to
everything (including NaN). -/
def pandasEq (a b : Option String) : Bool :=
  match a, b with
  | some x, some y => x == y
  | _, _ => false

/-- `df.loc[k] = row`: overwrite the row labelled `k` if the label exists,
otherwise append it at the end. -/
def locSet (df : Table) (k : Nat) (r : Row) : Table :=
  if df.any (fun e => e.1 == k) then
    df.map (fun e => if e.1 == k then (k, r) else e)
  else df ++ [(k, r)]

/-- First row carrying the given `ID` (the row whose rendered card's button
was clicked). -/
def findRow (df : Table) (id : String) : Option Row :=
  (df.find? (fun e => pandasEq e.2.id (some id))).map Prod.snd

/-- `save_images(files)`: keep the first 3 uploads and pad with `""` to a
fixed-width 3-slot list.  The generated on-disk name (timestamp, random
token, original name) is abstracted to the original name: no claim depends
on the name scheme. -/
def save_images (files : List String) : List String :=
  let paths := files.take 3
  paths ++ List.replicate (3 - paths.length) ""

/-- The form fields of the "Submit Announcement" handler. -/
structure CreateFields where
  postType : String
  category : String
  city : String
  description : String
  eventDate : String
  phone : String
  deletePassword : String
  images : List String
deriving DecidableEq

/-- The three validation failures, in the order the handler tests them. -/
inductive CreateError where
  | emptyDescription
  | invalidPhone
  | emptyPassword
deriving DecidableEq

/-- Effect summary of one run of the create handler: the resulting
in-memory table, the file written by `save_data` (if any), and the image
files written by `save_images` (if any). -/
structure CreateEffect where
  df : Table
  saved : Option CsvFile
  imagesWritten : List String
deriving DecidableEq

/-- The `new_post` dict of the handler: `new_id = str(len(df) + 1)`, the
image paths from `save_images`, today's date, and the stripped password. -/
def newRow (df : Table) (today : String) (f : CreateFields) : Row :=
  let paths := save_images f.images
  { id := some (Nat.repr (df.length + 1))
    ptype := some (pyLower f.postType)
    category := some f.category
    city := some f.city
    description := some f.description
    image1 := some (paths.getD 0 "")
    image2 := some (paths.getD 1 "")
    image3 := some (paths.getD 2 "")
    phone := some f.phone
    date := some today
    eventDate := some f.eventDate
    deletePassword := some (pyStrip f.deletePassword)
    resolved := false }

/-- The "Submit Announcement" handler: validation in source order, then
`save_images`, `new_id = str(len(df) + 1)`, `df.loc[len(df)] = new_post`,
`save_data(df)`. -/
def create (df : Table) (today : String) (f : CreateFields) :
    CreateEffect × Option CreateError :=
  if f.description = "" then (⟨df, none, []⟩, some .emptyDescription)
  else if f.phone.length ≠ 8 ∨ ¬ f.phone.data.all pyIsDigit then
    (⟨df, none, []⟩, some .invalidPhone)
  else if f.deletePassword = "" then (⟨df, none, []⟩, some .emptyPassword)
  else
    let df2 := locSet df df.length (newRow df today f)
    (⟨df2, some (save_data df2), f.images.take 3⟩, none)

/-- Outcome of the delete handler.  `notFound` is modelled from the spec:
the UI only offers the button for a row present in the rendered table, so
the handler itself has no explicit lookup-failure branch. -/
inductive DeleteOutcome where
  | success
  | unauthorized
  | notFound
deriving DecidableEq

/-- The "Delete Post" handler: find the row by id, compare the supplied
password with the stored one by exact (pandas `==`) string comparison, and
on success keep only the rows whose `ID` differs (`df[df["ID"] != row["ID"]]`)
and persist.  The `Option CsvFile` component is the file written (`none` =
no write). -/
def delete (df : Table) (id pw : String) :
    (Table × Option CsvFile) × DeleteOutcome :=
  match findRow df id with
  | none => ((df, none), .notFound)
  | some row =>
    if pandasEq (some pw) row.deletePassword then
      let df2 := df.filter (fun e => !pandasEq e.2.id row.id)
      ((df2, some (save_data df2)), .success)
    else ((df, none), .unauthorized)

/-- Outcome of the resolved-toggle handler; `notFound` modelled from the
spec as for `delete`. -/
inductive SetResolvedOutcome where
  | success
  | notFound
deriving DecidableEq

/-- The "Mark as Resolved/Unresolved" handler:
`df.loc[df["ID"] == row["ID"], "Resolved"] = value` then `save_data(df)`. -/
def setResolved (df : Table) (id : String) (v : Bool) :
    (Table × Option CsvFile) × SetResolvedOutcome :=
  match findRow df id with
  | none => ((df, none), .notFound)
  | some _ =>
    let df2 := df.map (fun e =>
      if pandasEq e.2.id (some id) then (e.1, { e.2 with resolved := v }) else e)
    ((df2, some (save_data df2)), .success)

/-- The filter controls of the "View Announcements" page.  `showResolved`
is the "Include resolved" checkbox; an unset date bound is `none`;
`keyword` is the search text input (`""` = empty). -/
structure Criteria where
  ftype : String
  city : String
  category : String
  showResolved : Bool
  keyword : String
  startDate : Option String
  endDate : Option String
deriving DecidableEq

/-- Does the regex pattern match at the head of the string?  Models the
fragment of Python regexes actually reachable through `str.contains`
here: literal characters and the `.` wildcard (which matches any character
except a newline), compared case-insensitively (`case=False` sets
`re.IGNORECASE`). -/
def reMatchAt : List Char → List Char → Bool
  | [], _ => true
  | _ :: _, [] => false
  | p :: ps, c :: cs =>
    (if p == '.' then c != '\n' else p.toLower == c.toLower) && reMatchAt ps cs

/-- Models Python `re.search` (on the fragment above): does the pattern
match at some position of the string? -/
def reSearch : List Char → List Char → Bool
  | pat, [] => reMatchAt pat []
  | pat, c :: cs => reMatchAt pat (c :: cs) || reSearch pat cs

/-- `Series.str.contains(query, case=False, na=False)` on one cell: NaN
never matches (`na=False`), and the query is a case-insensitive REGEX. -/
def strContains (cell : Option String) (query : String) : Bool :=
  match cell with
  | none => false
  | some s => reSearch query.data s.data

/-- One `if <cond>: filtered = filtered[<mask>]` step of the page. -/
def condFilter (b : Bool) (p : Row → Bool) (l : List Row) : List Row :=
  if b then l.filter p else l

/-- The sequential filters of the View Announcements page, applied to the
rows in table order. -/
def applyFilters (rows : List Row) (c : Criteria) : List Row :=
  let r1 := condFilter (c.ftype != "All")
    (fun r => pandasEq r.ptype (some (pyLower c.ftype))) rows
  let r2 := condFilter (c.city != "All")
    (fun r => pandasEq r.city (some c.city)) r1
  let r3 := condFilter (c.category != "All")
    (fun r => pandasEq r.category (some c.category)) r2
  let r4 := condFilter (!c.showResolved) (fun r => r.resolved == false) r3
  let r5 := condFilter (c.keyword != "")
    (fun r => strContains r.description c.keyword) r4
  let r6 := condFilter c.startDate.isSome
    (fun r =>
      match c.startDate, r.eventDate with
      | some sd, some e => lexLe sd.data e.data
      | _, _ => false) r5
  condFilter c.endDate.isSome
    (fun r =>
      match c.endDate, r.eventDate with
      | some ed, some e => lexLe e.data ed.data
      | _, _ => false) r6

/-- `Date` sort key of a row (only used on rows whose date is not NaN). -/
def dateKey (r : Row) : List Char := (r.date.getD "").data

/-- Stable ascending insertion: a row goes before the first row with a
strictly-or-equally larger date, keeping equal dates in input order.  This
is the effective behaviour of numpy's default argsort on the small object
arrays at hand (insertion sort below 17 elements is stable). -/
def insertRow (x : Row) : List Row → List Row
  | [] => [x]
  | y :: ys => if lexLe (dateKey x) (dateKey y) then x :: y :: ys
               else y :: insertRow x ys

/-- Stable ascending insertion sort by `Date`. -/
def isortAsc : List Row → List Row
  | [] => []
  | x :: xs => insertRow x (isortAsc xs)

/-- `filtered.sort_values("Date", ascending=False)`: pandas `nargsort`
argsorts the non-NaN keys ASCENDING, REVERSES the result for
`ascending=False`, and appends the NaN positions at the end
(`na_position="last"`). -/
def sort_values_date_desc (rows : List Row) : List Row :=
  (isortAsc (rows.filter (fun r => r.date.isSome))).reverse
    ++ rows.filter (fun r => r.date.isNone)

/-- The full Query Engine: filter then sort for display. -/
def filterPosts (df : Table) (c : Criteria) : List Row :=
  sort_values_date_desc (applyFilters (df.map Prod.snd) c)

/-- All criteria unset: selectboxes on "All", resolved included, empty
keyword, no date bounds. -/
def emptyCriteria : Criteria :=
  ⟨"All", "All", "All", true, "", none, none⟩

/-- Whether the form input passes the create handler's validation. -/
def validFields (f : CreateFields) : Prop :=
  f.description ≠ "" ∧ (f.phone.length = 8 ∧ f.phone.data.all pyIsDigit) ∧
    f.deletePassword ≠ ""

instance (f : CreateFields) : Decidable (validFields f) := by
  unfold validFields; infer_instance

/-- The persisted-file states reachable from a fresh install (no file) by
whole interactions: the Streamlit script reloads the table from the file at
the start of each interaction (`df = load_data()`), performs one successful
create or delete, and persists.  Failed operations write nothing and leave
the file as is. -/
inductive Reachable : Option CsvFile → Prop where
  | init : Reachable none
  | createStep {file : Option CsvFile} {today : String} {f : CreateFields} :
      Reachable file → (create (load_data file) today f).2 = none →
      Reachable (create (load_data file) today f).1.saved
  | deleteStep {file : Option CsvFile} {id pw : String} {df2 : Table}
      {fl : CsvFile} :
      Reachable file →
      delete (load_data file) id pw = ((df2, some fl), .success) →
      Reachable (some fl)

/-- File states reachable by successful creates alone (no deletion ever). -/
inductive ReachableC : Option CsvFile → Prop where
  | init : ReachableC none
  | createStep {file : Option CsvFile} {today : String} {f : CreateFields} :
      ReachableC file → (create (load_data file) today f).2 = none →
      ReachableC (create (load_data file) today f).1.saved

/- ===== Definitions written from the claims' words, for comparison ===== -/

/-- Case-insensitive literal match of a pattern at the head of a string —
the claim's "literal substring under case-insensitive comparison". -/
def litMatchAt : List Char → List Char → Bool
  | [], _ => true
  | _ :: _, [] => false
  | p :: ps, c :: cs => p.toLower == c.toLower && litMatchAt ps cs

/-- Case-insensitive literal substring containment, from the claim's
words (to be compared with the regex search the code performs). -/
def litContains : List Char → List Char → Bool
  | pat, [] => litMatchAt pat []
  | pat, c :: cs => litMatchAt pat (c :: cs) || litContains pat cs

/-- The characters Python's regex engine treats specially. -/
def regexMetachars : List Char :=
  ['.', '^', '$', '*', '+', '?', '\x7b', '\x7d', '[', ']', '\\', '|', '(', ')']

/-- The raw `pd.read_csv(dtype=str)` cell of column `c`: NaN if the column
is missing, the record is short, or the field is an `na_values` entry. -/
def rawCell (header : List String) (rec : List String) (c : String) :
    Option String :=
  match colIdx header c with
  | none => none
  | some j =>
    match rec.get? j with
    | none => none
    | some s => if s ∈ naValues then none else some s

/-- A loaded cell as the spec words it: the raw cell when the column is
present, the empty-string default when absent. -/
def specCell (header : List String) (rec : List String) (c : String) :
    Option String :=
  if c ∈ header then rawCell header rec c else some ""

/-- The spec's `resolved` coercion: the strings `"true"`/`"1"`
(case-insensitively) mean true, everything else — missing included — means
false. -/
def specResolved (v : Option String) : Bool :=
  match v with
  | some s => pyLower s == "true" || pyLower s == "1"
  | none => false

/-- One loaded row as the spec words it. -/
def specRow (header : List String) (rec : List String) : Row :=
  { id := specCell header rec "ID"
    ptype := specCell header rec "Type"
    category := specCell header rec "Category"
    city := specCell header rec "City"
    description := specCell header rec "Description"
    image1 := specCell header rec "Image1"
    image2 := specCell header rec "Image2"
    image3 := specCell header rec "Image3"
    phone := specCell header rec "Phone"
    date := specCell header rec "Date"
    eventDate := specCell header rec "EventDate"
    deletePassword := specCell header rec "DeletePassword"
    resolved := specResolved (specCell header rec "Resolved") }

/-- `load()` as the spec words it (C7): fixed 13-column schema, absent
columns defaulted to `""`, `resolved` coerced as above, and an empty table
with the full column set when no file exists. -/
def load_spec (file : Option CsvFile) : Table :=
  match file with
  | none => []
  | some f => (f.records.enum).map (fun p => (p.1, specRow f.header p.2))

/-- What one write-then-read trip does to a stored cell: a NaN stays NaN,
and a stored string that `to_csv` renders as one of pandas' `na_values`
fields (notably `""`) comes back as NaN. -/
def normField (v : Option String) : Option String :=
  v.bind (fun s => if s ∈ naValues then none else some s)

/-- A row after one save/load round trip. -/
def normRow (r : Row) : Row :=
  { id := normField r.id
    ptype := normField r.ptype
    category := normField r.category
    city := normField r.city
    description := normField r.description
    image1 := normField r.image1
    image2 := normField r.image2
    image3 := normField r.image3
    phone := normField r.phone
    date := normField r.date
    eventDate := normField r.eventDate
    deletePassword := normField r.deletePassword
    resolved := r.resolved }

/-- The first failing validation field of the create handler, in the
handler's order: description, then phone, then delete password. -/
def firstFailure (f : CreateFields) : Option CreateError :=
  if f.description = "" then some .emptyDescription
  else if f.phone.length ≠ 8 ∨ ¬ f.phone.data.all pyIsDigit then
    some .invalidPhone
  else if f.deletePassword = "" then some .emptyPassword
  else none

/-- Descending-date display order: a row precedes another if its posted
date is at least as late; rows with a NaN date come last. -/
def dateGe (a b : Row) : Prop :=
  match a.date, b.date with
  | some x, some y => lexLe y.data x.data
  | _, none => True
  | none, some _ => False

/- ===== Decimal rendering: properties of `Nat.repr` (`str(n)`) ===== -/

/-- Numeric value of a decimal digit character. -/
def decDigit (c : Char) : Nat := c.toNat - '0'.toNat

/-- Decimal decoding of a character list, with accumulator. -/
def decodeAux (a : Nat) : List Char → Nat
  | [] => a
  | c :: cs => decodeAux (a * 10 + decDigit c) cs

lemma digitChar_decDigit : ∀ d, d < 10 → decDigit (Nat.digitChar d) = d := by
  decide

lemma decodeAux_append_singleton (ds : List Char) (a : Nat) (c : Char) :
    decodeAux a (ds ++ [c]) = (decodeAux a ds) * 10 + decDigit c := by
  induction ds generalizing a with
  | nil => rfl
  | cons d ds ih =>
    show decodeAux (a * 10 + decDigit d) (ds ++ [c]) = _
    rw [ih]
    rfl

lemma toDigitsCore_out (fuel n : Nat) (ds : List Char) (h : n < 10 ^ fuel) :
    Nat.toDigitsCore 10 fuel n ds = Nat.toDigitsCore 10 fuel n [] ++ ds := by
  induction fuel generalizing n ds with
  | zero => exact (List.nil_append ds).symm
  | succ fuel ih =>
    by_cases h0 : n / 10 = 0
    · simp [Nat.toDigitsCore, h0]
    · have hlt : n / 10 < 10 ^ fuel := by
        rw [Nat.div_lt_iff_lt_mul (by norm_num)]
        calc n < 10 ^ (fuel + 1) := h
          _ = 10 ^ fuel * 10 := by ring
      simp only [Nat.toDigitsCore, h0, if_false]
      rw [ih (n / 10) ((n % 10).digitChar :: ds) hlt,
        ih (n / 10) [(n % 10).digitChar] hlt, List.append_assoc,
        List.singleton_append]

lemma decodeAux_toDigitsCore (fuel n : Nat) (h : n < 10 ^ fuel) :
    decodeAux 0 (Nat.toDigitsCore 10 fuel n []) = n := by
  induction fuel generalizing n with
  | zero =>
    have hn : n = 0 := by simpa using h
    subst hn
    rfl
  | succ fuel ih =>
    have hstep : Nat.toDigitsCore 10 (fuel + 1) n [] =
        if n / 10 = 0 then [(n % 10).digitChar]
        else Nat.toDigitsCore 10 fuel (n / 10) [(n % 10).digitChar] := rfl
    by_cases h0 : n / 10 = 0
    · rw [hstep, if_pos h0]
      show 0 * 10 + decDigit ((n % 10).digitChar) = n
      rw [digitChar_decDigit _ (Nat.mod_lt _ (by norm_num))]
      omega
    · have hlt : n / 10 < 10 ^ fuel := by
        rw [Nat.div_lt_iff_lt_mul (by norm_num)]
        calc n < 10 ^ (fuel + 1) := h
          _ = 10 ^ fuel * 10 := by ring
      rw [hstep, if_neg h0, toDigitsCore_out _ _ _ hlt,
        decodeAux_append_singleton, ih _ hlt,
        digitChar_decDigit _ (Nat.mod_lt _ (by norm_num))]
      omega

lemma lt_ten_pow (n : Nat) : n < 10 ^ (n + 1) :=
  Nat.lt_of_lt_of_le (Nat.lt_pow_self (by norm_num) n)
    (Nat.pow_le_pow_right (by norm_num) (Nat.le_succ n))

/-- `str(·)` on naturals is injective. -/
lemma repr_injective : ∀ {m n : Nat}, Nat.repr m = Nat.repr n → m = n := by
  intro m n h
  have hdata : Nat.toDigitsCore 10 (m + 1) m [] =
      Nat.toDigitsCore 10 (n + 1) n [] := by
    have := congrArg String.data h
    simpa [Nat.repr, Nat.toDigits, List.asString] using this
  calc m = decodeAux 0 (Nat.toDigitsCore 10 (m + 1) m []) :=
        (decodeAux_toDigitsCore _ _ (lt_ten_pow m)).symm
    _ = decodeAux 0 (Nat.toDigitsCore 10 (n + 1) n []) := by rw [hdata]
    _ = n := decodeAux_toDigitsCore _ _ (lt_ten_pow n)

lemma toDigitsCore_all_digits (fuel n : Nat) (ds : List Char)
    (hds : ∀ c ∈ ds, c.isDigit) :
    ∀ c ∈ Nat.toDigitsCore 10 fuel n ds, c.isDigit = true := by
  induction fuel generalizing n ds with
  | zero => simpa [Nat.toDigitsCore] using hds
  | succ fuel ih =>
    have hd : (Nat.digitChar (n % 10)).isDigit = true := by
      have h10 : n % 10 < 10 := Nat.mod_lt _ (by norm_num)
      have hall : ∀ d, d < 10 → (Nat.digitChar d).isDigit = true := by decide
      exact hall _ h10
    by_cases h0 : n / 10 = 0
    · simp only [Nat.toDigitsCore, h0, if_true]
      intro c hc
      rcases List.mem_cons.mp hc with rfl | hc
      · exact hd
      · exact hds c hc
    · simp only [Nat.toDigitsCore, h0, if_false]
      refine ih _ _ (fun c hc => ?_)
      rcases List.mem_cons.mp hc with rfl | hc
      · exact hd
      · exact hds c hc

lemma repr_all_digits (n : Nat) : ∀ c ∈ (Nat.repr n).data, c.isDigit = true := by
  simpa [Nat.repr, Nat.toDigits, List.asString] using
    toDigitsCore_all_digits (n + 1) n [] (by simp)

lemma toDigitsCore_ne_nil (fuel n : Nat) (ds : List Char) (hds : ds ≠ []) :
    Nat.toDigitsCore 10 fuel n ds ≠ [] := by
  induction fuel generalizing n ds with
  | zero => simpa [Nat.toDigitsCore] using hds
  | succ fuel ih =>
    by_cases h0 : n / 10 = 0
    · simp [Nat.toDigitsCore, h0]
    · simp only [Nat.toDigitsCore, h0, if_false]
      exact ih _ _ (by simp)

lemma repr_ne_empty (n : Nat) : Nat.repr n ≠ "" := by
  intro h
  have hdata : Nat.toDigitsCore 10 (n + 1) n [] = [] := by
    have := congrArg String.data h
    simpa [Nat.repr, Nat.toDigits, List.asString] using this
  revert hdata
  show Nat.toDigitsCore 10 (n + 1) n [] ≠ []
  by_cases h0 : n / 10 = 0
  · simp [Nat.toDigitsCore, h0]
  · simp only [Nat.toDigitsCore, h0, if_false]
    exact toDigitsCore_ne_nil _ _ _ (by simp)

/-- A rendered numeral is never one of pandas' NA markers. -/
lemma repr_not_na (n : Nat) : Nat.repr n ∉ naValues := by
  intro hmem
  have hne := repr_ne_empty n
  have hdig := repr_all_digits n
  simp only [naValues, List.mem_cons, List.not_mem_nil, or_false] at hmem
  rcases hmem with h|h|h|h|h|h|h|h|h|h|h|h|h|h|h|h|h|h|h <;>
    first
      | exact hne h
      | (rw [h] at hdig; revert hdig; decide)

/- ===== Order lemmas for the lexicographic date comparison ===== -/

lemma lexLt_irrefl : ∀ a : List Char, lexLt a a = false := by
  intro a
  induction a with
  | nil => rfl
  | cons x xs ih => simp [lexLt, ih]

lemma lexLt_neg_trans : ∀ a b c : List Char,
    lexLt b a = false → lexLt c b = false → lexLt c a = false := by
  intro a
  induction a with
  | nil =>
    intro b c _ _
    cases c with
    | nil => rfl
    | cons z zs =>
      cases b with
      | nil => rfl
      | cons y ys => simp [lexLt] at *
  | cons x xs ih =>
    intro b c hba hcb
    cases b with
    | nil => simp [lexLt] at hba
    | cons y ys =>
      cases c with
      | nil => simp [lexLt] at hcb
      | cons z zs =>
        simp only [lexLt] at hba hcb ⊢
        split_ifs at hba hcb ⊢ <;> try omega
        all_goals first
          | rfl
          | exact ih ys zs hba hcb
          | simp_all

lemma lexLt_asymm : ∀ a b : List Char, lexLt a b = true → lexLt b a = false := by
  intro a
  induction a with
  | nil =>
    intro b _
    cases b with
    | nil => rfl
    | cons y ys => rfl
  | cons x xs ih =>
    intro b hab
    cases b with
    | nil => simp [lexLt] at hab
    | cons y ys =>
      simp only [lexLt] at hab ⊢
      split_ifs at hab ⊢ <;> first | rfl | omega | exact ih ys hab | simp_all

lemma lexLe_refl (a : List Char) : lexLe a a = true := by
  simp [lexLe, lexLt_irrefl]

lemma lexLe_trans {a b c : List Char} :
    lexLe a b = true → lexLe b c = true → lexLe a c = true := by
  simp only [lexLe, Bool.not_eq_true']
  exact fun h1 h2 => lexLt_neg_trans a b c h1 h2

lemma lexLe_of_not_lexLe {a b : List Char} (h : ¬ lexLe a b = true) :
    lexLe b a = true := by
  simp only [lexLe, Bool.not_eq_true', Bool.not_eq_false] at h ⊢
  exact lexLt_asymm _ _ h

/- ===== Insertion sort lemmas ===== -/

lemma insertRow_perm (x : Row) (l : List Row) :
    (insertRow x l).Perm (x :: l) := by
  induction l with
  | nil => exact List.Perm.refl _
  | cons y ys ih =>
    by_cases h : lexLe (dateKey x) (dateKey y) = true
    · simp [insertRow, h]
    · simp only [insertRow, h, if_false]
      exact (ih.cons y).trans (List.Perm.swap x y ys)

lemma isortAsc_perm (l : List Row) : (isortAsc l).Perm l := by
  induction l with
  | nil => exact List.Perm.refl _
  | cons x xs ih =>
    exact ((insertRow_perm x (isortAsc xs)).trans (ih.cons x))

lemma insertRow_sorted (x : Row) (l : List Row)
    (h : l.Pairwise (fun a b => lexLe (dateKey a) (dateKey b) = true)) :
    (insertRow x l).Pairwise (fun a b => lexLe (dateKey a) (dateKey b) = true) := by
  induction l with
  | nil => simp [insertRow]
  | cons y ys ih =>
    rcases List.pairwise_cons.mp h with ⟨hy, hys⟩
    by_cases hxy : lexLe (dateKey x) (dateKey y) = true
    · simp only [insertRow, hxy, if_true]
      refine List.pairwise_cons.mpr ⟨?_, h⟩
      intro z hz
      rcases List.mem_cons.mp hz with rfl | hz
      · exact hxy
      · exact lexLe_trans hxy (hy z hz)
    · simp only [insertRow, hxy, if_false]
      refine List.pairwise_cons.mpr ⟨?_, ih hys⟩
      intro z hz
      have hz' := (insertRow_perm x ys).mem_iff.mp hz
      rcases List.mem_cons.mp hz' with rfl | hz'
      · exact lexLe_of_not_lexLe hxy
      · exact hy z hz'

lemma isortAsc_sorted (l : List Row) :
    (isortAsc l).Pairwise (fun a b => lexLe (dateKey a) (dateKey b) = true) := by
  induction l with
  | nil => simp [isortAsc]
  | cons x xs ih => exact insertRow_sorted x (isortAsc xs) ih

lemma insertRow_filter_date (x : Row) (l : List Row) (d : String) :
    (insertRow x l).filter (fun r => r.date == some d) =
      (if x.date == some d then [x] else [])
        ++ l.filter (fun r => r.date == some d) := by
  induction l with
  | nil => simp [insertRow, List.filter_cons]
  | cons y ys ih =>
    by_cases hxy : lexLe (dateKey x) (dateKey y) = true
    · simp only [insertRow, hxy, if_true]
      by_cases hpx : x.date = some d <;> by_cases hpy : y.date = some d <;>
        simp [List.filter_cons, hpx, hpy]
    · simp only [insertRow, hxy, if_false]
      by_cases hpy : y.date = some d
      · by_cases hpx : x.date = some d
        · exfalso
          apply hxy
          have hk : dateKey x = dateKey y := by simp [dateKey, hpx, hpy]
          rw [hk]
          exact lexLe_refl _
        · simp [List.filter_cons, hpx, hpy, ih]
      · by_cases hpx : x.date = some d <;>
          simp [List.filter_cons, hpx, hpy, ih]

lemma isortAsc_filter_date (l : List Row) (d : String) :
    (isortAsc l).filter (fun r => r.date == some d) =
      l.filter (fun r => r.date == some d) := by
  induction l with
  | nil => rfl
  | cons x xs ih =>
    show (insertRow x (isortAsc xs)).filter _ = _
    rw [insertRow_filter_date, ih, List.filter_cons]
    by_cases hpx : (x.date == some d) = true <;> simp [hpx]

/- ===== Lemmas about `sort_values_date_desc` and the filters ===== -/

lemma sort_values_perm (rows : List Row) :
    (sort_values_date_desc rows).Perm rows := by
  unfold sort_values_date_desc
  have h1 : ((isortAsc (rows.filter (fun r => r.date.isSome))).reverse
      ++ rows.filter (fun r => r.date.isNone)).Perm
      (rows.filter (fun r => r.date.isSome)
        ++ rows.filter (fun r => r.date.isNone)) := by
    exact List.Perm.append
      ((List.reverse_perm _).trans (isortAsc_perm _)) (List.Perm.refl _)
  refine h1.trans ?_
  have h2 : rows.filter (fun r => r.date.isNone) =
      rows.filter (fun r => !(fun r : Row => r.date.isSome) r) := by
    apply List.filter_congr
    intro a _
    cases h : a.date <;> simp [h]
  rw [h2]
  exact List.filter_append_perm _ rows

lemma sort_values_pairwise (rows : List Row) :
    (sort_values_date_desc rows).Pairwise dateGe := by
  unfold sort_values_date_desc
  rw [List.pairwise_append]
  refine ⟨?_, ?_, ?_⟩
  · rw [List.pairwise_reverse]
    have hs := isortAsc_sorted (rows.filter (fun r => r.date.isSome))
    refine List.Pairwise.imp_of_mem ?_ hs
    intro a b ha hb hle
    have ha' := (List.mem_filter.mp ((isortAsc_perm _).mem_iff.mp ha)).2
    have hb' := (List.mem_filter.mp ((isortAsc_perm _).mem_iff.mp hb)).2
    rcases Option.isSome_iff_exists.mp ha' with ⟨x, hx⟩
    rcases Option.isSome_iff_exists.mp hb' with ⟨y, hy⟩
    show dateGe b a
    unfold dateGe
    rw [hx, hy]
    simpa [dateKey, hx, hy] using hle
  · refine List.pairwise_of_forall_mem_list ?_
    intro a _ b hb
    have hb' := (List.mem_filter.mp hb).2
    unfold dateGe
    rw [Option.isNone_iff_eq_none.mp hb']
    cases a.date <;> simp
  · intro a ha b hb
    have hb' := (List.mem_filter.mp hb).2
    unfold dateGe
    rw [Option.isNone_iff_eq_none.mp hb']
    cases a.date <;> simp

lemma sort_values_filter_date (rows : List Row) (d : String) :
    (sort_values_date_desc rows).filter (fun r => r.date == some d) =
      (rows.filter (fun r => r.date == some d)).reverse := by
  unfold sort_values_date_desc
  rw [List.filter_append, List.filter_reverse, isortAsc_filter_date]
  have hnil : (rows.filter (fun r => r.date.isNone)).filter
      (fun r => r.date == some d) = [] := by
    rw [List.filter_eq_nil_iff]
    intro a ha
    have ha' := (List.mem_filter.mp ha).2
    rw [Option.isNone_iff_eq_none.mp ha']
    simp
  rw [hnil, List.append_nil, List.filter_filter]
  congr 1
  apply List.filter_congr
  intro a _
  by_cases h : a.date = some d <;> simp [h]

/- ===== Filter-pipeline and matcher lemmas ===== -/

lemma condFilter_sublist (b : Bool) (p : Row → Bool) (l : List Row) :
    (condFilter b p l).Sublist l := by
  unfold condFilter
  split
  · exact List.filter_sublist l
  · exact List.Sublist.refl l

lemma applyFilters_sublist (rows : List Row) (c : Criteria) :
    (applyFilters rows c).Sublist rows := by
  unfold applyFilters
  exact (condFilter_sublist _ _ _).trans
    ((condFilter_sublist _ _ _).trans
    ((condFilter_sublist _ _ _).trans
    ((condFilter_sublist _ _ _).trans
    ((condFilter_sublist _ _ _).trans
    ((condFilter_sublist _ _ _).trans
    (condFilter_sublist _ _ _))))))

lemma applyFilters_empty (rows : List Row) :
    applyFilters rows emptyCriteria = rows := rfl

lemma reMatchAt_no_dot (pat : List Char) (h : '.' ∉ pat) :
    ∀ s, reMatchAt pat s = litMatchAt pat s := by
  induction pat with
  | nil => intro s; rfl
  | cons p ps ih =>
    intro s
    have hp : p ≠ '.' := fun hc => h (by simp [hc])
    have hps : '.' ∉ ps := fun hc => h (List.mem_cons_of_mem _ hc)
    cases s with
    | nil => rfl
    | cons c cs =>
      have hpb : (p == '.') = false := by simpa using hp
      simp only [reMatchAt, litMatchAt, hpb, ih hps]
      simp

lemma reSearch_no_dot (pat : List Char) (h : '.' ∉ pat) :
    ∀ s, reSearch pat s = litContains pat s := by
  intro s
  induction s with
  | nil => exact reMatchAt_no_dot pat h []
  | cons c cs ih =>
    simp only [reSearch, litContains, reMatchAt_no_dot pat h, ih]

lemma pandasEq_some_right (a : Option String) (q : String) :
    pandasEq a (some q) = true ↔ a = some q := by
  cases a with
  | none => simp [pandasEq]
  | some x => simp [pandasEq]

lemma pandasEq_some_left (p : String) (v : Option String) :
    pandasEq (some p) v = true ↔ v = some p := by
  cases v with
  | none => simp [pandasEq]
  | some x =>
    constructor
    · intro h
      have hx : p = x := by simpa [pandasEq] using h
      rw [hx]
    · intro h
      have hx : x = p := by simpa using h
      simp [pandasEq, hx]

lemma findRow_id {df : Table} {id : String} {row : Row}
    (h : findRow df id = some row) : row.id = some id := by
  unfold findRow at h
  cases hf : df.find? (fun e => pandasEq e.2.id (some id)) with
  | none => rw [hf] at h; simp at h
  | some e =>
    rw [hf] at h
    have hp := List.find?_some hf
    have : e.2 = row := by simpa using h
    rw [← this]
    exact (pandasEq_some_right _ _).mp hp

/-- With a fresh label, `df.loc[len(df)]` appends. -/
lemma locSet_append (df : Table) (k : Nat) (r : Row)
    (h : ∀ e ∈ df, e.1 ≠ k) : locSet df k r = df ++ [(k, r)] := by
  unfold locSet
  have : df.any (fun e => e.1 == k) = false := by
    rw [Bool.eq_false_iff]
    intro hc
    rcases List.any_eq_true.mp hc with ⟨e, he, hek⟩
    exact h e he (by simpa using hek)
  rw [this]
  simp

/-- The freshly `loc`-assigned row is always present afterwards. -/
lemma locSet_mem (df : Table) (k : Nat) (r : Row) : (k, r) ∈ locSet df k r := by
  unfold locSet
  by_cases h : df.any (fun e => e.1 == k) = true
  · rw [if_pos h]
    rcases List.any_eq_true.mp h with ⟨e, he, hek⟩
    refine List.mem_map.mpr ⟨e, he, ?_⟩
    rw [if_pos hek]
  · rw [if_neg h]
    simp

/- ===== Record Store lemmas (schema and round trip) ===== -/

lemma colIdx_eq_none_iff (header : List String) (c : String) :
    colIdx header c = none ↔ c ∉ header := by
  induction header with
  | nil => simp [colIdx]
  | cons h hs ih =>
    simp only [colIdx, List.mem_cons]
    by_cases hh : h = c
    · simp [hh]
    · simp only [hh, if_false, Option.map_eq_none', ih]
      constructor
      · intro hn hor
        rcases hor with h1 | h2
        · exact hh h1.symm
        · exact hn h2
      · intro hn h2
        exact hn (Or.inr h2)

lemma readCell_eq_specCell (header : List String) (rec : List String)
    (c : String) : readCell header rec c = specCell header rec c := by
  unfold readCell specCell rawCell
  by_cases h : c ∈ header
  · rw [if_pos h]
    cases hc : colIdx header c with
    | none => exact absurd ((colIdx_eq_none_iff header c).mp hc) (by simpa using h)
    | some j => rfl
  · rw [if_neg h, (colIdx_eq_none_iff header c).mpr h]

lemma coerceResolved_eq_specResolved (v : Option String) :
    coerceResolved v = specResolved v := by
  cases v with
  | none => rfl
  | some s =>
    unfold coerceResolved specResolved
    by_cases h1 : pyLower s = "true"
    · simp [h1]
    · by_cases h2 : pyLower s = "false"
      · simp [h1, h2]
      · by_cases h3 : pyLower s = "1"
        · simp [h1, h2, h3]
        · by_cases h4 : pyLower s = "0" <;> simp [h1, h2, h3, h4]

lemma rowOfRecord_eq_specRow (header : List String) (rec : List String) :
    rowOfRecord header rec = specRow header rec := by
  unfold rowOfRecord specRow
  simp only [readCell_eq_specCell, coerceResolved_eq_specResolved]

/-- Write-then-read of one cell via its column position. -/
lemma readCell_at (r : Row) (c : String) (j : Nat) (v : String)
    (hidx : colIdx columns c = some j)
    (hget : (rowRecord r).get? j = some v) :
    readCell columns (rowRecord r) c =
      if v ∈ naValues then none else some v := by
  unfold readCell
  rw [hidx]
  show (match (rowRecord r).get? j with
    | none => none
    | some s => if s ∈ naValues then none else some s) = _
  rw [hget]

lemma na_getD (v : Option String) :
    (if (v.getD "") ∈ naValues then none else some (v.getD "")) =
      normField v := by
  cases v with
  | none => simp [normField, naValues]
  | some s => rfl

lemma rowOfRecord_rowRecord (r : Row) :
    rowOfRecord columns (rowRecord r) = normRow r := by
  have h1 : readCell columns (rowRecord r) "ID" = normField r.id := by
    rw [readCell_at r "ID" 0 (r.id.getD "") rfl rfl]; exact na_getD r.id
  have h2 : readCell columns (rowRecord r) "Type" = normField r.ptype := by
    rw [readCell_at r "Type" 1 (r.ptype.getD "") rfl rfl]
    exact na_getD r.ptype
  have h3 : readCell columns (rowRecord r) "Category" = normField r.category := by
    rw [readCell_at r "Category" 2 (r.category.getD "") rfl rfl]
    exact na_getD r.category
  have h4 : readCell columns (rowRecord r) "City" = normField r.city := by
    rw [readCell_at r "City" 3 (r.city.getD "") rfl rfl]
    exact na_getD r.city
  have h5 : readCell columns (rowRecord r) "Description" =
      normField r.description := by
    rw [readCell_at r "Description" 4 (r.description.getD "") rfl rfl]
    exact na_getD r.description
  have h6 : readCell columns (rowRecord r) "Image1" = normField r.image1 := by
    rw [readCell_at r "Image1" 5 (r.image1.getD "") rfl rfl]
    exact na_getD r.image1
  have h7 : readCell columns (rowRecord r) "Image2" = normField r.image2 := by
    rw [readCell_at r "Image2" 6 (r.image2.getD "") rfl rfl]
    exact na_getD r.image2
  have h8 : readCell columns (rowRecord r) "Image3" = normField r.image3 := by
    rw [readCell_at r "Image3" 7 (r.image3.getD "") rfl rfl]
    exact na_getD r.image3
  have h9 : readCell columns (rowRecord r) "Phone" = normField r.phone := by
    rw [readCell_at r "Phone" 8 (r.phone.getD "") rfl rfl]
    exact na_getD r.phone
  have h10 : readCell columns (rowRecord r) "Date" = normField r.date := by
    rw [readCell_at r "Date" 9 (r.date.getD "") rfl rfl]
    exact na_getD r.date
  have h11 : readCell columns (rowRecord r) "EventDate" =
      normField r.eventDate := by
    rw [readCell_at r "EventDate" 10 (r.eventDate.getD "") rfl rfl]
    exact na_getD r.eventDate
  have h12 : readCell columns (rowRecord r) "DeletePassword" =
      normField r.deletePassword := by
    rw [readCell_at r "DeletePassword" 11 (r.deletePassword.getD "") rfl rfl]
    exact na_getD r.deletePassword
  have h13 : coerceResolved (readCell columns (rowRecord r) "Resolved") =
      r.resolved := by
    have hcell : readCell columns (rowRecord r) "Resolved" =
        some (if r.resolved then "True" else "False") := by
      rw [readCell_at r "Resolved" 12 (if r.resolved then "True" else "False")
        rfl rfl]
      cases r.resolved <;> simp [naValues]
    rw [hcell]
    cases r.resolved <;> rfl
  unfold rowOfRecord normRow
  rw [h1, h2, h3, h4, h5, h6, h7, h8, h9, h10, h11, h12, h13]

/- ===== Create-handler lemmas and the create-only invariant ===== -/

lemma create_success (df : Table) (today : String) (f : CreateFields)
    (hv : validFields f) :
    create df today f =
      (⟨locSet df df.length (newRow df today f),
        some (save_data (locSet df df.length (newRow df today f))),
        f.images.take 3⟩, none) := by
  rcases hv with ⟨hd, hp, hpw⟩
  unfold create
  rw [if_neg hd, if_neg (by simp [hp.1, hp.2]), if_neg hpw]

/-- The outcome component of `create` is exactly the first failing
validation (or `none` on success). -/
lemma create_snd (df : Table) (today : String) (f : CreateFields) :
    (create df today f).2 = firstFailure f := by
  unfold create firstFailure
  by_cases h1 : f.description = ""
  · rw [if_pos h1, if_pos h1]
  · rw [if_neg h1, if_neg h1]
    by_cases h2 : f.phone.length ≠ 8 ∨ ¬ f.phone.data.all pyIsDigit
    · rw [if_pos h2, if_pos h2]
    · rw [if_neg h2, if_neg h2]
      by_cases h3 : f.deletePassword = ""
      · rw [if_pos h3, if_pos h3]
      · rw [if_neg h3, if_neg h3]

lemma validFields_of_success {df : Table} {today : String} {f : CreateFields}
    (hs : (create df today f).2 = none) : validFields f := by
  rw [create_snd] at hs
  unfold firstFailure at hs
  unfold validFields
  by_cases h1 : f.description = ""
  · rw [if_pos h1] at hs
    simp at hs
  · rw [if_neg h1] at hs
    by_cases h2 : f.phone.length ≠ 8 ∨ ¬ f.phone.data.all pyIsDigit
    · rw [if_pos h2] at hs
      simp at hs
    · rw [if_neg h2] at hs
      by_cases h3 : f.deletePassword = ""
      · rw [if_pos h3] at hs
        simp at hs
      · push_neg at h2
        exact ⟨h1, ⟨h2.1, by simpa using h2.2⟩, h3⟩

/-- Invariant of the create-only reachable files: saved with the fixed
header, and the record at position `i` stores id `str(i + 1)`. -/
def goodFile : Option CsvFile → Prop
  | none => True
  | some fl => fl.header = columns ∧
      ∀ i rec, fl.records.get? i = some rec →
        rec.get? 0 = some (Nat.repr (i + 1))

lemma load_entry {file : Option CsvFile} (hg : goodFile file) :
    ∀ i e, (load_data file).get? i = some e →
      e.1 = i ∧ e.2.id = some (Nat.repr (i + 1)) := by
  cases file with
  | none => intro i e he; simp [load_data] at he
  | some fl =>
    intro i e he
    unfold load_data at he
    rw [List.get?_map, List.enum_get?] at he
    cases hr : fl.records.get? i with
    | none => rw [hr] at he; simp at he
    | some rec =>
      rw [hr] at he
      simp only [Option.map_some'] at he
      have he' : (i, rowOfRecord fl.header rec) = e := by
        simpa using he
      rcases hg with ⟨hhd, hrec⟩
      have hid : readCell fl.header rec "ID" = some (Nat.repr (i + 1)) := by
        rw [hhd]
        unfold readCell
        show (match rec.get? 0 with
          | none => none
          | some s => if s ∈ naValues then none else some s) = _
        rw [hrec i rec hr]
        show (if Nat.repr (i + 1) ∈ naValues then none
          else some (Nat.repr (i + 1))) = some (Nat.repr (i + 1))
        rw [if_neg (repr_not_na (i + 1))]
      rw [← he']
      exact ⟨rfl, hid⟩

lemma load_labels_lt {file : Option CsvFile} (hg : goodFile file) :
    ∀ e ∈ load_data file, e.1 < (load_data file).length := by
  intro e he
  rcases List.mem_iff_get?.mp he with ⟨i, hi⟩
  rcases List.get?_eq_some.mp hi with ⟨hlt, _⟩
  rw [(load_entry hg i e hi).1]
  exact hlt

lemma goodFile_create {file : Option CsvFile} (hg : goodFile file)
    (today : String) (f : CreateFields)
    (hs : (create (load_data file) today f).2 = none) :
    goodFile (create (load_data file) today f).1.saved := by
  have hv := validFields_of_success hs
  set df := load_data file with hdf
  have hlab : ∀ e ∈ df, e.1 ≠ df.length := by
    intro e he
    exact Nat.ne_of_lt (load_labels_lt hg e he)
  rw [create_success df today f hv]
  rw [locSet_append df df.length (newRow df today f) hlab]
  show (save_data (df ++ [(df.length, newRow df today f)])).header = columns ∧ _
  constructor
  · rfl
  · intro i rec hr
    unfold save_data at hr
    rw [List.map_append] at hr
    simp only [List.map_cons, List.map_nil] at hr
    by_cases hcmp : i < df.length
    · rw [List.get?_append (by simpa using hcmp), List.get?_map] at hr
      cases hd : df.get? i with
      | none => rw [hd] at hr; simp at hr
      | some e =>
        rw [hd] at hr
        simp only [Option.map_some'] at hr
        have hid := (load_entry hg i e hd).2
        have hreq : rec = rowRecord e.2 := by simpa using hr.symm
        rw [hreq]
        show some (e.2.id.getD "") = some (Nat.repr (i + 1))
        rw [hid]
        rfl
    · by_cases heq : i = df.length
      · have hix : (df.map (fun e => rowRecord e.2)).length = i := by
          simp [heq]
        rw [← hix, List.get?_concat_length] at hr
        have hreq : rec = rowRecord (newRow df today f) := by
          simpa using hr.symm
        rw [hreq]
        show some ((newRow df today f).id.getD "") = some (Nat.repr (i + 1))
        rw [heq]
        rfl
      · have hgt : (df.map (fun e => rowRecord e.2)
            ++ [rowRecord (newRow df today f)]).length ≤ i := by
          simp
          omega
        rw [List.get?_eq_none.mpr hgt] at hr
        simp at hr

lemma reachC_good {file : Option CsvFile} (h : ReachableC file) :
    goodFile file := by
  induction h with
  | init => trivial
  | createStep hr hs ih => exact goodFile_create ih _ _ hs

/- ===== Concrete fixtures used by witnesses and counterexamples ===== -/

/-- A post as created by the handler (password "pw"). -/
def rowX : Row :=
  ⟨some "1", some "lost", some "Pets", some "Kuwait City",
   some "black wallet", some "", some "", some "", some "12345678",
   some "2024-01-02", some "2024-01-01", some "pw", false⟩

/-- A one-row table holding `rowX` at label 0. -/
def dfX : Table := [(0, rowX)]

/-- Form input whose phone has 7 digits. -/
def badPhoneFields : CreateFields :=
  ⟨"Lost", "Bags", "Salmiya", "brown bag", "2024-01-01", "1234567", "pw", []⟩

/- ===== C4 ===== -/

/-- C4: when the description is empty, the phone is not exactly 8 numeric
characters, or the delete password is empty, `create` fails with the first
failing field in the order description, phone, deletePassword, and performs
no mutation: the table is returned unchanged, no file is written, and no
image is written. -/
theorem C4_create_validation (df : Table) (today : String) (f : CreateFields) :
    (create df today f).2 = firstFailure f ∧
      ∀ e, firstFailure f = some e →
        create df today f = (⟨df, none, []⟩, some e) := by
  refine ⟨create_snd df today f, ?_⟩
  intro e he
  unfold firstFailure at he
  unfold create
  by_cases h1 : f.description = ""
  · rw [if_pos h1] at he
    rw [if_pos h1, ← Option.some.inj he]
  · rw [if_neg h1] at he
    rw [if_neg h1]
    by_cases h2 : f.phone.length ≠ 8 ∨ ¬ f.phone.data.all pyIsDigit
    · rw [if_pos h2] at he
      rw [if_pos h2, ← Option.some.inj he]
    · rw [if_neg h2] at he
      rw [if_neg h2]
      by_cases h3 : f.deletePassword = ""
      · rw [if_pos h3] at he
        rw [if_pos h3, ← Option.some.inj he]
      · rw [if_neg h3] at he
        exact absurd he (by simp)

theorem C4_create_validation_witness :
    create [] "2025-01-01" badPhoneFields =
      (⟨[], none, []⟩, some CreateError.invalidPhone) :=
  (C4_create_validation [] "2025-01-01" badPhoneFields).2
    CreateError.invalidPhone (by decide)

/- ===== C5 ===== -/

/-- C5: for an existing id and any supplied password different from the
stored one (exact string comparison; a NaN-stored password matches
nothing), the delete handler leaves the table untouched, writes nothing,
and reports the wrong-password outcome, which is distinct from the
not-found outcome. -/
theorem C5_delete_wrong_password (df : Table) (id pw : String) (row : Row)
    (hfind : findRow df id = some row)
    (hpw : some pw ≠ row.deletePassword) :
    delete df id pw = ((df, none), DeleteOutcome.unauthorized) ∧
      DeleteOutcome.unauthorized ≠ DeleteOutcome.notFound := by
  have hf : pandasEq (some pw) row.deletePassword = false := by
    rw [Bool.eq_false_iff]
    intro hc
    exact hpw ((pandasEq_some_left pw row.deletePassword).mp hc).symm
  constructor
  · simp [delete, hfind, hf]
  · intro hcontra
    exact DeleteOutcome.noConfusion hcontra

theorem C5_delete_wrong_password_witness :
    delete dfX "1" "zz" = ((dfX, none), DeleteOutcome.unauthorized) ∧
      DeleteOutcome.unauthorized ≠ DeleteOutcome.notFound :=
  C5_delete_wrong_password dfX "1" "zz" rowX (by decide) (by decide)

/- ===== C6 ===== -/

/-- C6: when exactly one row carries the id and the supplied password
equals its stored one, delete removes exactly that row — every other row
is retained unchanged, in order — and persists the reduced table. -/
theorem C6_delete_success (df : Table) (id pw : String) (row : Row)
    (hfind : findRow df id = some row)
    (hpw : row.deletePassword = some pw)
    (hone : df.countP (fun e => pandasEq e.2.id (some id)) = 1) :
    ∃ l1 e l2, df = l1 ++ e :: l2 ∧ e.2.id = some id ∧
      (∀ x ∈ l1, pandasEq x.2.id (some id) = false) ∧
      (∀ x ∈ l2, pandasEq x.2.id (some id) = false) ∧
      delete df id pw =
        ((l1 ++ l2, some (save_data (l1 ++ l2))), DeleteOutcome.success) := by
  have hid : row.id = some id := findRow_id hfind
  rw [List.countP_eq_length_filter] at hone
  rcases List.length_eq_one.mp hone with ⟨a, ha⟩
  rcases List.filter_eq_cons_iff.mp ha with ⟨l1, l2, hdf, hl1, hpa, hl2⟩
  have hl1' : ∀ x ∈ l1, pandasEq x.2.id (some id) = false := by
    intro x hx
    simpa using hl1 x hx
  have hl2' : ∀ x ∈ l2, pandasEq x.2.id (some id) = false := by
    intro x hx
    simpa using List.filter_eq_nil_iff.mp hl2 x hx
  refine ⟨l1, a, l2, hdf, (pandasEq_some_right _ _).mp hpa, hl1', hl2', ?_⟩
  have htrue : pandasEq (some pw) row.deletePassword = true := by
    rw [hpw]
    simp [pandasEq]
  have hfilter : df.filter (fun e => !pandasEq e.2.id row.id) = l1 ++ l2 := by
    rw [hid, hdf, List.filter_append, List.filter_cons]
    have hnota : (!pandasEq a.2.id (some id)) = false := by
      simp [hpa]
    rw [hnota]
    have e1 : l1.filter (fun e => !pandasEq e.2.id (some id)) = l1 :=
      List.filter_eq_self.mpr (fun x hx => by simp [hl1' x hx])
    have e2 : l2.filter (fun e => !pandasEq e.2.id (some id)) = l2 :=
      List.filter_eq_self.mpr (fun x hx => by simp [hl2' x hx])
    rw [e1, e2]
    simp
  simp [delete, hfind, htrue, hfilter]

theorem C6_delete_success_witness :
    delete dfX "1" "pw" = (([], some (save_data [])), DeleteOutcome.success) := by
  have h := C6_delete_success dfX "1" "pw" rowX (by decide) (by decide) (by decide)
  rcases h with ⟨l1, e, l2, hdf, _, _, _, hdel⟩
  have hl1 : l1 = [] := by
    have hc := congrArg List.length hdf
    simp [dfX] at hc
    exact List.eq_nil_of_length_eq_zero (by omega)
  subst hl1
  have hce : (0, rowX) :: ([] : Table) = e :: l2 := by
    simpa [dfX] using hdf
  rw [List.cons.injEq] at hce
  rcases hce with ⟨he, hl2⟩
  rw [← hl2] at hdel
  simpa using hdel

/- ===== C8 ===== -/

/-- C8: the resolved toggle fails with the not-found outcome (modelled from
the spec; the UI cannot reach it) when no row carries the id, and otherwise
— when exactly one row carries it — flips exactly that row's `Resolved` to
the given value, keeps every other row unchanged in order, persists, and
reports success. -/
theorem C8_set_resolved (df : Table) (id : String) (v : Bool) :
    (findRow df id = none →
      setResolved df id v = ((df, none), SetResolvedOutcome.notFound)) ∧
    ∀ row, findRow df id = some row →
      df.countP (fun e => pandasEq e.2.id (some id)) = 1 →
      ∃ l1 e l2, df = l1 ++ e :: l2 ∧ e.2.id = some id ∧
        setResolved df id v =
          ((l1 ++ (e.1, { e.2 with resolved := v }) :: l2,
            some (save_data (l1 ++ (e.1, { e.2 with resolved := v }) :: l2))),
           SetResolvedOutcome.success) := by
  constructor
  · intro hnone
    simp [setResolved, hnone]
  · intro row hfind hone
    rw [List.countP_eq_length_filter] at hone
    rcases List.length_eq_one.mp hone with ⟨a, ha⟩
    rcases List.filter_eq_cons_iff.mp ha with ⟨l1, l2, hdf, hl1, hpa, hl2⟩
    refine ⟨l1, a, l2, hdf, (pandasEq_some_right _ _).mp hpa, ?_⟩
    have hmap : df.map (fun e =>
        if pandasEq e.2.id (some id) then (e.1, { e.2 with resolved := v })
        else e) = l1 ++ (a.1, { a.2 with resolved := v }) :: l2 := by
      rw [hdf, List.map_append, List.map_cons]
      have e1 : l1.map (fun e =>
          if pandasEq e.2.id (some id) then (e.1, { e.2 with resolved := v })
          else e) = l1 := by
        refine (List.map_congr_left ?_).trans (List.map_id l1)
        intro x hx
        have hx' : ¬ pandasEq x.2.id (some id) = true := hl1 x hx
        simp [hx']
      have e2 : l2.map (fun e =>
          if pandasEq e.2.id (some id) then (e.1, { e.2 with resolved := v })
          else e) = l2 := by
        refine (List.map_congr_left ?_).trans (List.map_id l2)
        intro x hx
        have hx' := List.filter_eq_nil_iff.mp hl2 x hx
        simp [hx']
      rw [e1, e2, if_pos hpa]
    simp [setResolved, hfind, hmap]

theorem C8_set_resolved_witness :
    setResolved dfX "1" true =
      (([(0, { rowX with resolved := true })],
        some (save_data [(0, { rowX with resolved := true })])),
       SetResolvedOutcome.success) := by
  have h := (C8_set_resolved dfX "1" true).2 rowX (by decide) (by decide)
  rcases h with ⟨l1, e, l2, hdf, _, hset⟩
  have hl1 : l1 = [] := by
    have hc := congrArg List.length hdf
    simp [dfX] at hc
    exact List.eq_nil_of_length_eq_zero (by omega)
  subst hl1
  have hce : (0, rowX) :: ([] : Table) = e :: l2 := by
    simpa [dfX] using hdf
  rw [List.cons.injEq] at hce
  rcases hce with ⟨he, hl2⟩
  rw [← he, ← hl2] at hset
  simpa using hset

/- ===== C7 ===== -/

/-- C7: `load_data` always yields the fixed 13-column schema exactly as the
spec words it — absent columns become the empty-string default, `Resolved`
is true exactly for the strings `"true"`/`"1"` case-insensitively and false
for everything else (missing and unparseable included), and a missing file
yields the empty table that still has the full column set.  (The fixed
column set itself is structural: every loaded row is a full `Row`.) -/
theorem C7_load_schema (file : Option CsvFile) :
    load_data file = load_spec file := by
  cases file with
  | none => rfl
  | some f =>
    unfold load_data load_spec
    apply List.map_congr_left
    intro p _
    rw [rowOfRecord_eq_specRow]

/- ===== C9 ===== -/

/-- A legacy file containing only the `ID` column. -/
def fileC9 : CsvFile := ⟨["ID"], [["1"]]⟩

/-- C9 counterexample: for the loaded table of `fileC9` (whose absent
columns were defaulted to `""`), saving and re-loading does NOT give the
same rows back: `to_csv` writes `""` as an empty field and `read_csv`
turns it into NaN. -/
theorem C9_counterexample :
    load_data (some (save_data (load_data (some fileC9)))) ≠
      load_data (some fileC9) := by decide

/-- C9 amended: one save/load round trip is exactly a cell-wise
normalization — labels are re-assigned `0, 1, …` and every stored string
that `to_csv` renders as one of pandas' NA fields (notably the empty
string) comes back as NaN; all other cells, and the `Resolved` boolean,
survive unchanged.  Tables without such cells round-trip exactly. -/
theorem C9_roundtrip (df : Table) :
    load_data (some (save_data df)) =
      (df.map (fun e => normRow e.2)).enum := by
  unfold load_data save_data
  simp only [List.enum_map, List.map_map]
  apply List.map_congr_left
  intro p _
  show (p.1, rowOfRecord columns (rowRecord p.2.2)) = (p.1, normRow p.2.2)
  rw [rowOfRecord_rowRecord]

/- ===== C2 ===== -/

/-- Two same-day posts, in insertion order A then B. -/
def rowTieA : Row :=
  ⟨some "1", some "lost", some "Pets", some "Hawally", some "dog",
   some "", some "", some "", some "12345678", some "2024-01-02",
   some "2024-01-01", some "pw", false⟩

def rowTieB : Row :=
  ⟨some "2", some "lost", some "Pets", some "Hawally", some "cat",
   some "", some "", some "", some "12345678", some "2024-01-02",
   some "2024-01-01", some "pw", false⟩

def dfTie : Table := [(0, rowTieA), (1, rowTieB)]

/-- C2 counterexample: two rows with equal `postedDate` come back in
REVERSED insertion order — `sort_values(ascending=False)` reverses an
ascending argsort, so the claimed stability fails. -/
theorem C2_counterexample :
    rowTieA.date = rowTieB.date ∧ rowTieA ≠ rowTieB ∧
      filterPosts dfTie emptyCriteria = [rowTieB, rowTieA] := by decide

/-- C2 amended: `filter` returns a permutation of the criteria-matching
rows (all rows when no criterion is set), ordered descending by
`postedDate` with NaN dates last; but rows with EQUAL `postedDate` appear
in the REVERSE of their insertion order (pandas reverses an ascending
argsort for a descending sort), not in insertion order. -/
theorem C2_filter_sort (df : Table) (c : Criteria) :
    (applyFilters (df.map Prod.snd) c).Sublist (df.map Prod.snd) ∧
    (filterPosts df c).Perm (applyFilters (df.map Prod.snd) c) ∧
    (filterPosts df c).Pairwise dateGe ∧
    (∀ d, (filterPosts df c).filter (fun r => r.date == some d) =
      ((applyFilters (df.map Prod.snd) c).filter
        (fun r => r.date == some d)).reverse) ∧
    applyFilters (df.map Prod.snd) emptyCriteria = df.map Prod.snd :=
  ⟨applyFilters_sublist _ _, sort_values_perm _, sort_values_pairwise _,
    fun d => sort_values_filter_date _ d, applyFilters_empty _⟩

/- ===== C3 ===== -/

/-- A criteria struct with only a keyword set. -/
def kwCriteria (q : String) : Criteria :=
  ⟨"All", "All", "All", true, q, none, none⟩

/-- A row whose description is the single letter `x`. -/
def rowDot : Row :=
  ⟨some "1", some "lost", some "Pets", some "Hawally", some "x",
   some "", some "", some "", some "12345678", some "2024-01-02",
   some "2024-01-01", some "pw", false⟩

/-- C3 counterexample: the keyword `"."` is NOT a literal substring of the
description `"x"` (case-insensitively), yet the filter keeps the row —
`str.contains` treats the keyword as a regular expression by default. -/
theorem C3_counterexample :
    applyFilters [rowDot] (kwCriteria ".") = [rowDot] ∧
      litContains ".".data "x".data = false := by decide

/-- C3 amended: the keyword is a case-insensitive REGEX search
(`str.contains` with `regex=True`); for keywords free of regex
metacharacters this coincides with literal substring matching, the filter
then keeps exactly the rows whose description contains the keyword
case-insensitively, a missing (NaN) description never matches
(`na=False`), and an empty keyword applies no filter. -/
theorem C3_keyword_regex (rows : List Row) (q : String) (hq : q ≠ "")
    (hmeta : ∀ ch ∈ q.data, ch ∉ regexMetachars) :
    applyFilters rows (kwCriteria q) = rows.filter (fun r =>
      match r.description with
      | some s => litContains q.data s.data
      | none => false) ∧
    applyFilters rows (kwCriteria "") = rows := by
  constructor
  · have hne : (q != "") = true := by simpa using hq
    have h5 : applyFilters rows (kwCriteria q) =
        rows.filter (fun r => strContains r.description q) := by
      unfold applyFilters kwCriteria condFilter
      simp [hne]
    rw [h5]
    apply List.filter_congr
    intro r _
    have hdot : '.' ∉ q.data := fun hc =>
      hmeta '.' hc (by simp [regexMetachars])
    unfold strContains
    cases r.description with
    | none => rfl
    | some s => exact reSearch_no_dot q.data hdot s.data
  · rfl

/-- A post mentioning a wallet, and one that does not. -/
def rowWallet : Row :=
  ⟨some "1", some "lost", some "Personal Items", some "Salmiya",
   some "Lost black WALLET near the mall", some "", some "", some "",
   some "12345678", some "2024-01-02", some "2024-01-01", some "pw", false⟩

def rowBag : Row :=
  ⟨some "2", some "found", some "Bags", some "Jahra", some "brown bag",
   some "", some "", some "", some "12345678", some "2024-01-02",
   some "2024-01-01", some "pw", false⟩

theorem C3_keyword_regex_witness :
    applyFilters [rowWallet, rowBag] (kwCriteria "wallet") = [rowWallet] ∧
      applyFilters [rowWallet, rowBag] (kwCriteria "") =
        [rowWallet, rowBag] := by
  have h := C3_keyword_regex [rowWallet, rowBag] "wallet" (by decide)
    (by decide)
  refine ⟨?_, h.2⟩
  rw [h.1]
  decide

/- ===== C10 ===== -/

/-- C10: `create` stores the delete password STRIPPED of surrounding
whitespace while the non-empty validation checks the unstripped input, and
`delete` compares the supplied password exactly against the stored value;
hence re-supplying the original whitespace-padded password is rejected as
unauthorized, only the stripped form deletes, and a whitespace-only
password passes validation but is stored as the empty string. -/
theorem C10_password_strip (df : Table) (today : String) (f : CreateFields)
    (hv : validFields f)
    (hlab : ∀ e ∈ df, e.1 ≠ df.length)
    (hid : ∀ e ∈ df, e.2.id ≠ some (Nat.repr (df.length + 1))) :
    (create df today f).2 = none ∧
    (create df today f).1.df = df ++ [(df.length, newRow df today f)] ∧
    (newRow df today f).deletePassword = some (pyStrip f.deletePassword) ∧
    (pyStrip f.deletePassword ≠ f.deletePassword →
      delete (create df today f).1.df (Nat.repr (df.length + 1))
        f.deletePassword =
        (((create df today f).1.df, none), DeleteOutcome.unauthorized)) ∧
    delete (create df today f).1.df (Nat.repr (df.length + 1))
      (pyStrip f.deletePassword) =
      ((df, some (save_data df)), DeleteOutcome.success) ∧
    (f.deletePassword.data.all pyIsSpace = true →
      pyStrip f.deletePassword = "") := by
  have hc := create_success df today f hv
  have hdf2 : (create df today f).1.df =
      df ++ [(df.length, newRow df today f)] := by
    rw [hc]
    exact locSet_append _ _ _ hlab
  have hfind : findRow (df ++ [(df.length, newRow df today f)])
      (Nat.repr (df.length + 1)) = some (newRow df today f) := by
    unfold findRow
    rw [List.find?_append]
    have h1 : df.find?
        (fun e => pandasEq e.2.id (some (Nat.repr (df.length + 1)))) =
          none := by
      rw [List.find?_eq_none]
      intro x hx hpx
      exact hid x hx ((pandasEq_some_right _ _).mp hpx)
    have hp : pandasEq (df.length, newRow df today f).2.id
        (some (Nat.repr (df.length + 1))) = true := by
      show pandasEq (some (Nat.repr (df.length + 1)))
        (some (Nat.repr (df.length + 1))) = true
      simp [pandasEq]
    rw [h1, Option.none_or]
    simp [List.find?, hp]
  refine ⟨by rw [hc], hdf2, rfl, ?_, ?_, ?_⟩
  · intro hne
    rw [hdf2]
    have hpne : pandasEq (some f.deletePassword)
        (newRow df today f).deletePassword = false := by
      show pandasEq (some f.deletePassword)
        (some (pyStrip f.deletePassword)) = false
      simp [pandasEq]
      exact fun hcon => hne hcon.symm
    simp [delete, hfind, hpne]
  · rw [hdf2]
    have hpeq : pandasEq (some (pyStrip f.deletePassword))
        (newRow df today f).deletePassword = true := by
      show pandasEq (some (pyStrip f.deletePassword))
        (some (pyStrip f.deletePassword)) = true
      simp [pandasEq]
    have hfilter : (df ++ [(df.length, newRow df today f)]).filter
        (fun e => !pandasEq e.2.id (newRow df today f).id) = df := by
      rw [List.filter_append]
      have e1 : df.filter
          (fun e => !pandasEq e.2.id (newRow df today f).id) = df := by
        refine List.filter_eq_self.mpr (fun x hx => ?_)
        have : pandasEq x.2.id (newRow df today f).id = false := by
          rw [Bool.eq_false_iff]
          intro hcp
          exact hid x hx ((pandasEq_some_right _ _).mp hcp)
        simp [this]
      have hp : pandasEq (df.length, newRow df today f).2.id
          (newRow df today f).id = true := by
        show pandasEq (some (Nat.repr (df.length + 1)))
          (some (Nat.repr (df.length + 1))) = true
        simp [pandasEq]
      rw [e1, List.filter_cons]
      simp [hp]
    simp [delete, hfind, hpeq, hfilter]
  · intro hws
    have h1 : f.deletePassword.data.dropWhile pyIsSpace = [] :=
      List.dropWhile_eq_nil_iff.mpr
        (fun x hx => (List.all_eq_true.mp hws) x hx)
    unfold pyStrip
    rw [h1]
    rfl

/-- A valid submission whose chosen delete password is `" pw "`. -/
def wsFields : CreateFields :=
  ⟨"Found", "Jewelry", "Hawally", "gold ring", "2024-01-01", "12345678",
   " pw ", []⟩

theorem C10_password_strip_witness :
    delete (create [] "2024-01-05" wsFields).1.df "1" " pw " =
      (((create [] "2024-01-05" wsFields).1.df, none),
        DeleteOutcome.unauthorized) ∧
    delete (create [] "2024-01-05" wsFields).1.df "1" "pw" =
      (([], some (save_data [])), DeleteOutcome.success) := by
  have h := C10_password_strip [] "2024-01-05" wsFields (by decide)
    (by simp) (by simp)
  obtain ⟨_, _, _, h4, h5, _⟩ := h
  exact ⟨h4 (by decide), h5⟩

/- ===== C1 ===== -/

/-- Valid form input: a lost dog post. -/
def fieldsA : CreateFields :=
  ⟨"Lost", "Pets", "Hawally", "dog", "2024-01-01", "12345678", "pw", []⟩

/-- Valid form input: a lost cat post. -/
def fieldsB : CreateFields :=
  ⟨"Lost", "Pets", "Hawally", "cat", "2024-01-01", "12345678", "pw", []⟩

/-- The persisted file after creating the dog post on an empty store. -/
def fileC1a : CsvFile :=
  ⟨columns, [["1", "lost", "Pets", "Hawally", "dog", "", "", "",
    "12345678", "2024-01-02", "2024-01-01", "pw", "False"]]⟩

/-- The persisted file after also creating the cat post. -/
def fileC1b : CsvFile :=
  ⟨columns, [["1", "lost", "Pets", "Hawally", "dog", "", "", "",
    "12345678", "2024-01-02", "2024-01-01", "pw", "False"],
   ["2", "lost", "Pets", "Hawally", "cat", "", "", "",
    "12345678", "2024-01-02", "2024-01-01", "pw", "False"]]⟩

/-- The persisted file after then deleting post id "1". -/
def fileC1c : CsvFile :=
  ⟨columns, [["2", "lost", "Pets", "Hawally", "cat", "", "", "",
    "12345678", "2024-01-02", "2024-01-01", "pw", "False"]]⟩

/-- The cat post as re-loaded from `fileC1b` (empty image cells → NaN). -/
def rowBLoaded : Row :=
  ⟨some "2", some "lost", some "Pets", some "Hawally", some "cat",
   none, none, none, some "12345678", some "2024-01-02",
   some "2024-01-01", some "pw", false⟩

/-- C1 counterexample: create, create, delete id "1" reaches a store whose
single surviving row has id "2"; the next create would assign
`str(1 + 1) = "2"` — NOT unique among the loaded rows. -/
theorem C1_counterexample :
    Reachable (some fileC1c) ∧
      some (Nat.repr ((load_data (some fileC1c)).length + 1)) ∈
        (load_data (some fileC1c)).map (fun e => e.2.id) := by
  constructor
  · have h1 : Reachable (create (load_data none) "2024-01-02" fieldsA).1.saved :=
      Reachable.createStep Reachable.init (by decide)
    rw [show (create (load_data none) "2024-01-02" fieldsA).1.saved =
      some fileC1a from by decide] at h1
    have h2 : Reachable
        (create (load_data (some fileC1a)) "2024-01-02" fieldsB).1.saved :=
      Reachable.createStep h1 (by decide)
    rw [show (create (load_data (some fileC1a)) "2024-01-02" fieldsB).1.saved =
      some fileC1b from by decide] at h2
    exact Reachable.deleteStep h2
      (by decide : delete (load_data (some fileC1b)) "1" "pw" =
        (([(1, rowBLoaded)], some fileC1c), DeleteOutcome.success))
  · decide

/-- C1 amended: in every store state reachable by valid creates ALONE (no
deletion ever), the id the next create would assign — `str(len + 1)` — is
unique among the loaded rows; and for every create on any table, the
appended row carries `postedDate = today` and id `str(len + 1)`. -/
theorem C1_unique_ids (file : Option CsvFile) (h : ReachableC file)
    (today : String) (f : CreateFields) (hv : validFields f) :
    (some (Nat.repr ((load_data file).length + 1)) ∉
      (load_data file).map (fun e => e.2.id)) ∧
    ∀ df : Table, (create df today f).2 = none ∧
      (df.length, newRow df today f) ∈ (create df today f).1.df ∧
      (newRow df today f).date = some today ∧
      (newRow df today f).id = some (Nat.repr (df.length + 1)) := by
  constructor
  · intro hmem
    rcases List.mem_map.mp hmem with ⟨e, he, heid⟩
    rcases List.mem_iff_get?.mp he with ⟨i, hi⟩
    have hlt : i < (load_data file).length := by
      rcases List.get?_eq_some.mp hi with ⟨hlt, _⟩
      exact hlt
    have hentry := load_entry (reachC_good h) i e hi
    rw [hentry.2] at heid
    have heq : i + 1 = (load_data file).length + 1 :=
      repr_injective (Option.some.inj heid)
    omega
  · intro df
    refine ⟨by rw [create_success df today f hv], ?_, rfl, rfl⟩
    rw [create_success df today f hv]
    exact locSet_mem df df.length (newRow df today f)

theorem C1_unique_ids_witness :
    some (Nat.repr ((load_data none).length + 1)) ∉
      (load_data none).map (fun e => e.2.id) :=
  (C1_unique_ids none ReachableC.init "2024-01-02" fieldsA (by decide)).1
